import Mathlib

/-!
# HLS pull loop (`HLS.run` of `main.go`)

A shallow embedding of the playlist polling loop of the HLS publisher:
`readM3U8`, the segment selection walk, the cap of three, the per-segment
download/feed loop and the retry counter.

Everything the loop obtains from outside (the HTTP client, the m3u8 parser,
the consumer `p.Err()`, the clock and the channel length) is read from an
environment `Env` of answer streams; the state carries one cursor per stream.
The loop itself is the deterministic function `step`, executed once per
playlist request, once per selected segment and once per inter-cycle sleep.

Integers: `playlist.Sequence`, the counters and the costs are Go `int`
(64 bit); they are modelled as unbounded `Int`, the counters move by one per
network round trip and never get near the machine bound.
The source discards the errors of `URL.Parse` and `http.NewRequest`: for a
segment identifier that does not resolve, the following statement dereferences
nil and `run` panics; `Env.resolves` tells the identifiers that resolve and the
panic is the control point `panicked`.
-/

set_option linter.dupNamespace false

namespace HLS

/-! ## Data model -/

/-- Raw bytes of a downloaded segment. -/
abbrev Body := List Nat

/-- The m3u8 segment item; `run` reads only its `Segment` field (the URL as
written in the playlist). -/
structure SegmentItem where
  Segment : String
  deriving DecidableEq, Repr

/-- Playlist items as seen by the type switch of `run`: a segment, a
discontinuity marker, or any other item type (skipped by the switch). -/
inductive Item where
  | segment (v : SegmentItem)
  | discontinuity
  | other
  deriving DecidableEq, Repr

/-- The parsed playlist: `Sequence`, `Target`, `Items`, and `Text` for the
value of `playlist.String()`. -/
structure Playlist where
  Sequence : Int
  Target : Int
  Items : List Item
  Text : String
  deriving DecidableEq, Repr

/-- Per-segment cost record `TSCost`. -/
structure TSCost where
  DownloadCost : Int
  DecodeCost : Int
  BufferLength : Int
  deriving DecidableEq, Repr

/-- The Go zero value `TSCost{}`. -/
def TSCost.zero : TSCost := ⟨0, 0, 0⟩

/-- The observable record `M3u8Info` (the request template `Req` is never
written by `run` and is left out). -/
structure M3u8Info where
  M3U8Count : Int
  TSCount : Int
  LastM3u8 : String
  M3u8Info : List TSCost
  deriving DecidableEq, Repr

/-- The two ways `readM3U8` fails. -/
inductive ReadError where
  | gzip
  | parse
  deriving DecidableEq, Repr

/-- What `readM3U8` needs of an HTTP response: the `Content-Encoding` header,
the result of `gzip.NewReader` on the body (`none` when it fails, otherwise
the result of `m3u8.Read` on the decompressed stream), and the result of
`m3u8.Read` on the plain body. -/
structure Response where
  ContentEncoding : String
  gzipReader : Option (Option Playlist)
  plain : Option Playlist
  deriving DecidableEq, Repr

/-- Result of `client.Do(info.Req)`. -/
inductive DoResult where
  | transportErr
  | resp (r : Response)
  deriving DecidableEq, Repr

/-- Result of `client.Do(tsReq)` followed by `ioutil.ReadAll`:
the request failed, the body read failed, or the body arrived. -/
inductive SegResult where
  | doErr
  | readErr
  | body (b : Body)
  deriving DecidableEq, Repr

/-- Clock and channel readings taken while one segment is handled. -/
structure Meas where
  downloadCost : Int
  saveActive : Bool
  beginLen : Int
  decodeCost : Int
  bufferLength : Int
  deriving DecidableEq, Repr

/-- The outside world as answer streams: `fetch k` answers the k-th playlist
request, `seg k` the k-th segment request, `err k` is `true` when the k-th
call of `p.Err()` returns non-nil, `meas k` are the readings for the k-th
segment request; `resolves x` is `true` when `info.Req.URL.Parse(x)` and
`http.NewRequest` on its result both succeed. -/
structure Env where
  fetch : Nat → DoResult
  seg : Nat → SegResult
  err : Nat → Bool
  meas : Nat → Meas
  resolves : String → Bool

/-- Externally visible actions of the loop, in the order they happen. -/
inductive Event where
  | getPlaylist
  | getSegment (v : SegmentItem)
  | writeFile (v : SegmentItem)
  | feed (v : SegmentItem) (b : Body)
  | closeChan
  | sleep (seconds : Int)
  | cancel
  deriving DecidableEq, Repr

/-- Control point of `run`: about to issue the playlist request and test the
loop condition (`poll`), inside the `for _, v := range tsItems` loop with the
segments still to handle and the playlist target duration (`segs`), returned
(`done`), or left by the nil dereference that follows a segment identifier
that does not resolve (`panicked`). -/
inductive PC where
  | poll
  | segs (rest : List SegmentItem) (target : Int)
  | done
  | panicked
  deriving DecidableEq, Repr

/-- The variables of `run`: `sequence`, `lastTs` (a `map[string]bool` that
only ever holds `true`, hence its key set), `errcount`, the record `info`,
`tsItems` (the slice declared in the loop body, empty in an iteration that
does not reach its declaration), `PesCount`, the stream cursors and the
event log. -/
structure State where
  pc : PC
  sequence : Int
  lastTs : Finset String
  errcount : Nat
  info : M3u8Info
  tsItems : List SegmentItem
  PesCount : Int
  nFetch : Nat
  nSeg : Nat
  nErr : Nat
  trace : List Event

/-! ## readM3U8 -/

/-- The function `readM3U8`: decompress when the header says gzip, then parse. -/
def readM3U8 (res : Response) : Except ReadError Playlist :=
  if res.ContentEncoding = "gzip" then
    match res.gzipReader with
    | none => .error .gzip
    | some none => .error .parse
    | some (some pl) => .ok pl
  else
    match res.plain with
    | none => .error .parse
    | some pl => .ok pl

/-! ## Segment selection -/

/-- Loop variables of the walk over `playlist.Items`. -/
structure Walk where
  discontinuity : Bool
  thisTs : Finset String
  tsItems : List SegmentItem

/-- One iteration of `for _, item := range playlist.Items`. -/
def walkItem (lastTs : Finset String) (w : Walk) : Item → Walk
  | .discontinuity => { w with discontinuity := true }
  | .segment v =>
    if v.Segment ∈ lastTs ∧ w.discontinuity = false then
      { w with thisTs := insert v.Segment w.thisTs }
    else
      { w with thisTs := insert v.Segment w.thisTs, tsItems := w.tsItems ++ [v] }
  | .other => w

/-- The whole walk, started with `discontinuity = false` and empty
`thisTs`, `tsItems`. -/
def walk (lastTs : Finset String) (items : List Item) : Walk :=
  items.foldl (walkItem lastTs) ⟨false, ∅, []⟩

/-- The cap: `if len(tsItems) > 3 { tsItems = tsItems[len(tsItems)-3:] }`. -/
def cap3 (tsItems : List SegmentItem) : List SegmentItem :=
  if tsItems.length > 3 then tsItems.drop (tsItems.length - 3) else tsItems

/-! ## The loop -/

/-- Leaving `run`: the deferred function cancels the consumer. -/
def terminate (s : State) : State :=
  { s with pc := .done, trace := s.trace ++ [.cancel] }

/-- The statement `info.M3u8Info = append(info.M3u8Info, tsCost)`. -/
def record (s : State) (c : TSCost) : State :=
  { s with info := { s.info with M3u8Info := s.info.M3u8Info ++ [c] } }

/-- The statement `info.TSCount++`. -/
def countTs (s : State) : State :=
  { s with info := { s.info with TSCount := s.info.TSCount + 1 } }

/-- The playlist request, the loop condition and the loop body up to the
start of the segment loop. -/
def pollStep (env : Env) (s : State) : State :=
  let s1 : State :=
    { s with nFetch := s.nFetch + 1, trace := s.trace ++ [.getPlaylist], tsItems := [] }
  match env.fetch s.nFetch with
  | .transportErr => terminate s1
  | .resp r =>
    if env.err s.nErr then terminate { s1 with nErr := s.nErr + 1 }
    else
      match readM3U8 r with
      | .ok pl =>
        if pl.Sequence ≤ s.sequence then
          { s1 with
            nErr := s.nErr + 1, errcount := 0,
            info := { s.info with LastM3u8 := pl.Text },
            trace := s1.trace ++ [.sleep 1], pc := .poll }
        else
          let w := walk s.lastTs pl.Items
          { s1 with
            nErr := s.nErr + 1, errcount := 0,
            info := { s.info with
              LastM3u8 := pl.Text, M3U8Count := s.info.M3U8Count + 1, M3u8Info := [] },
            sequence := pl.Sequence, lastTs := w.thisTs, tsItems := cap3 w.tsItems,
            pc := .segs (cap3 w.tsItems) pl.Target }
      | .error _ =>
        if s.errcount + 1 > 10 then
          terminate { s1 with nErr := s.nErr + 1, errcount := s.errcount + 1 }
        else
          { s1 with nErr := s.nErr + 1, errcount := s.errcount + 1, pc := .poll }

/-- The nil dereference at `tsUrl.String()` (or `tsReq.Header`): nothing is
requested or recorded, the deferred function cancels the consumer, and `run`
does not go on. -/
def panicStep (s : State) : State :=
  { s with pc := .panicked, trace := s.trace ++ [.cancel] }

/-- One iteration of `for _, v := range tsItems` from `client.Do(tsReq)` on,
for an identifier that resolved. -/
def segBody (env : Env) (s : State) (v : SegmentItem) (rest : List SegmentItem)
    (target : Int) : State :=
  let m := env.meas s.nSeg
  let s1 : State :=
    { s with nSeg := s.nSeg + 1, trace := s.trace ++ [.getSegment v], pc := .segs rest target }
  match env.seg s.nSeg with
  | .doErr => record s1 TSCost.zero
  | .readErr =>
    if env.err s.nErr then record { s1 with nErr := s.nErr + 1 } TSCost.zero
    else record (countTs { s1 with nErr := s.nErr + 1 }) TSCost.zero
  | .body b =>
    if env.err s.nErr then record { s1 with nErr := s.nErr + 1 } TSCost.zero
    else if env.err (s.nErr + 1) then
      record (countTs { s1 with nErr := s.nErr + 2 }) TSCost.zero
    else
      record
        (countTs { s1 with
          nErr := s.nErr + 3,
          PesCount := m.bufferLength - m.beginLen,
          trace := s1.trace ++ (if m.saveActive then [.writeFile v] else [])
            ++ [.feed v b] ++ (if env.err (s.nErr + 2) then [.closeChan] else []) })
        ⟨m.downloadCost, m.decodeCost, m.bufferLength⟩

/-- One iteration of `for _, v := range tsItems`: the URL and the request are
built first, then the request is made. -/
def segStep (env : Env) (s : State) (v : SegmentItem) (rest : List SegmentItem)
    (target : Int) : State :=
  if env.resolves v.Segment = true then segBody env s v rest target else panicStep s

/-- The sleep that ends a cycle: `time.Sleep(time.Second * Target * 2)`. -/
def sleepStep (s : State) (target : Int) : State :=
  { s with trace := s.trace ++ [.sleep (2 * target)], pc := .poll }

/-- One move of `run`. -/
def step (env : Env) (s : State) : State :=
  match s.pc with
  | .poll => pollStep env s
  | .segs [] target => sleepStep s target
  | .segs (v :: rest) target => segStep env s v rest target
  | .done => s
  | .panicked => s

/-- The state in which `run(info)` starts. -/
def init (info : M3u8Info) : State :=
  { pc := .poll, sequence := 0, lastTs := ∅, errcount := 0, info := info,
    tsItems := [], PesCount := 0, nFetch := 0, nSeg := 0, nErr := 0, trace := [] }

/-- The first `n` moves from `s`. -/
def steps (env : Env) : Nat → State → State
  | 0, s => s
  | n + 1, s => steps env n (step env s)

/-- From the start of the segment loop to the end of the cycle: moves while
the control point is inside the segment loop, at most `fuel` of them. -/
def finish (env : Env) : Nat → State → State
  | 0, s => s
  | fuel + 1, s =>
    match s.pc with
    | .segs _ _ => finish env fuel (step env s)
    | _ => s

/-- One whole poll cycle from a `poll` state: the playlist request and, when
segments were selected, their handling and the closing sleep. -/
def cycle (env : Env) (s : State) : State :=
  finish env ((step env s).tsItems.length + 1) (step env s)

/-! ## Reading the event log -/

/-- The segments requested, in order. -/
def gets : List Event → List SegmentItem
  | [] => []
  | .getSegment v :: es => v :: gets es
  | _ :: es => gets es

/-- The segments fed to the consumer with their bodies, in order. -/
def feeds : List Event → List (SegmentItem × Body)
  | [] => []
  | .feed v b :: es => (v, b) :: feeds es
  | _ :: es => feeds es

/-- The segment items of a list of playlist items, in order. -/
def segmentsOf : List Item → List SegmentItem
  | [] => []
  | .segment v :: is => v :: segmentsOf is
  | _ :: is => segmentsOf is

/-- Candidates as the specification words them: the segment items before the
first discontinuity marker that are not in the previous seen-set, followed by
all segment items after that marker. -/
def specCandidates (lastTs : Finset String) (items : List Item) : List SegmentItem :=
  (segmentsOf (items.takeWhile (fun i => decide (i ≠ Item.discontinuity)))).filter
      (fun v => decide (v.Segment ∉ lastTs))
    ++ segmentsOf (items.dropWhile (fun i => decide (i ≠ Item.discontinuity)))

/-! ## The segment loop with a live consumer, in the words of the specification -/

/-- A plain (not compressed) response carrying `pl`. -/
def plainResp (pl : Playlist) : DoResult :=
  .resp ⟨"", none, some pl⟩

/-- A response whose body does not parse. -/
def badResp : DoResult :=
  .resp ⟨"", none, none⟩

/-- A gzip response whose body is not a gzip stream. -/
def badGzipResp : DoResult :=
  .resp ⟨"gzip", none, none⟩

/-- Readings used in the examples. -/
def meas0 : Meas := ⟨5, false, 0, 7, 2⟩

/-- The zero value of `M3u8Info`. -/
def info0 : M3u8Info := ⟨0, 0, "", []⟩

/-- First playlist of the examples: sequence 1, one segment `a`. -/
def plFirst : Playlist := ⟨1, 2, [.segment ⟨"a"⟩], "p1"⟩

/-- Second playlist: sequence 2, a discontinuity marker followed by the
already seen `a` and three further segments. -/
def plDisc : Playlist :=
  ⟨2, 2, [.discontinuity, .segment ⟨"a"⟩, .segment ⟨"b"⟩, .segment ⟨"c"⟩, .segment ⟨"d"⟩], "p2"⟩

/-- Second playlist, short variant: `b`, a discontinuity marker, the already
seen `a`, then `c`. -/
def plShort : Playlist :=
  ⟨2, 2, [.segment ⟨"b"⟩, .discontinuity, .segment ⟨"a"⟩, .segment ⟨"c"⟩], "p3"⟩

/-- Every request succeeds, the consumer never reports an error; the first
playlist answer is `plFirst`, all later ones are `plDisc`. -/
def envDisc : Env :=
  ⟨fun k => if k = 0 then plainResp plFirst else plainResp plDisc,
    fun _ => .body [1], fun _ => false, fun _ => meas0, fun _ => true⟩

/-- As `envDisc` with `plShort` as the later answer. -/
def envShort : Env :=
  ⟨fun k => if k = 0 then plainResp plFirst else plainResp plShort,
    fun _ => .body [1], fun _ => false, fun _ => meas0, fun _ => true⟩

/-- Every playlist answer is `plFirst`. -/
def envSame : Env :=
  ⟨fun _ => plainResp plFirst, fun _ => .body [1], fun _ => false, fun _ => meas0,
    fun _ => true⟩

/-- Every playlist answer arrives but does not parse. -/
def envBad : Env :=
  ⟨fun _ => badResp, fun _ => .body [1], fun _ => false, fun _ => meas0, fun _ => true⟩

/-- Ten answers that do not parse, then `plFirst`. -/
def envBadTen : Env :=
  ⟨fun k => if k < 10 then badResp else plainResp plFirst,
    fun _ => .body [1], fun _ => false, fun _ => meas0, fun _ => true⟩

/-- Every playlist request fails in transport. -/
def envTransport : Env :=
  ⟨fun _ => .transportErr, fun _ => .body [1], fun _ => false, fun _ => meas0, fun _ => true⟩

/-- Every playlist answer claims gzip and is not a gzip stream. -/
def envBadGzip : Env :=
  ⟨fun _ => badGzipResp, fun _ => .body [1], fun _ => false, fun _ => meas0, fun _ => true⟩

/-- A playlist with sequence number 0 and two segments. -/
def plZero : Playlist := ⟨0, 2, [.segment ⟨"a"⟩, .segment ⟨"b"⟩], "p0"⟩

/-- Two playlist answers with sequence number 0, then `plFirst`. -/
def envZero : Env :=
  ⟨fun k => if k < 2 then plainResp plZero else plainResp plFirst,
    fun _ => .body [1], fun _ => false, fun _ => meas0, fun _ => true⟩

/-- A first playlist whose first identifier is not a valid URL reference. -/
def plBadUrl : Playlist := ⟨1, 2, [.segment ⟨"%zz"⟩, .segment ⟨"b"⟩], "p6"⟩

/-- Every request succeeds, but the identifier `%zz` does not resolve. -/
def envBadUrl : Env :=
  ⟨fun _ => plainResp plBadUrl, fun _ => .body [1], fun _ => false, fun _ => meas0,
    fun x => decide (x ≠ "%zz")⟩

/-! ## Lemmas on the event log readers -/

theorem gets_append (a b : List Event) : gets (a ++ b) = gets a ++ gets b := by
  induction a with
  | nil => rfl
  | cons e es ih => cases e <;> simp [gets, ih]

theorem feeds_append (a b : List Event) : feeds (a ++ b) = feeds a ++ feeds b := by
  induction a with
  | nil => rfl
  | cons e es ih => cases e <;> simp [feeds, ih]

theorem segmentsOf_append (a b : List Item) :
    segmentsOf (a ++ b) = segmentsOf a ++ segmentsOf b := by
  induction a with
  | nil => rfl
  | cons i is ih => cases i <;> simp [segmentsOf, ih]

/-! ## Lemmas on the selection walk -/

theorem foldl_walk_thisTs (lastTs : Finset String) (items : List Item) (w : Walk) (x : String) :
    x ∈ (items.foldl (walkItem lastTs) w).thisTs ↔
      x ∈ w.thisTs ∨ ∃ v ∈ segmentsOf items, v.Segment = x := by
  induction items generalizing w with
  | nil => simp [segmentsOf]
  | cons i is ih =>
    cases i with
    | segment v =>
      rw [List.foldl_cons, ih]
      by_cases h : v.Segment ∈ lastTs ∧ w.discontinuity = false
      · simp only [walkItem, h, and_self, if_true, Finset.mem_insert, segmentsOf,
          List.mem_cons, exists_eq_or_imp]
        tauto
      · simp only [walkItem, h, if_false, Finset.mem_insert, segmentsOf,
          List.mem_cons, exists_eq_or_imp]
        tauto
    | discontinuity => rw [List.foldl_cons, ih]; simp [walkItem, segmentsOf]
    | other => rw [List.foldl_cons, ih]; simp [walkItem, segmentsOf]

theorem foldl_walk_after (lastTs : Finset String) (items : List Item) (w : Walk)
    (hd : w.discontinuity = true) :
    (items.foldl (walkItem lastTs) w).tsItems = w.tsItems ++ segmentsOf items := by
  induction items generalizing w with
  | nil => simp [segmentsOf]
  | cons i is ih =>
    cases i with
    | segment v =>
      rw [List.foldl_cons, ih]
      · simp [walkItem, hd, segmentsOf]
      · simp [walkItem, hd]
    | discontinuity =>
      rw [List.foldl_cons, ih]
      · simp [walkItem, segmentsOf]
      · simp [walkItem]
    | other =>
      rw [List.foldl_cons, ih]
      · simp [walkItem, segmentsOf]
      · simpa [walkItem] using hd

theorem foldl_walk_before (lastTs : Finset String) (items : List Item) (w : Walk)
    (hd : w.discontinuity = false) :
    (items.foldl (walkItem lastTs) w).tsItems = w.tsItems ++ specCandidates lastTs items := by
  induction items generalizing w with
  | nil => simp [specCandidates, segmentsOf]
  | cons i is ih =>
    cases i with
    | segment v =>
      rw [List.foldl_cons]
      by_cases h : v.Segment ∈ lastTs
      · rw [ih _ (by simp [walkItem, h, hd])]
        simp [walkItem, h, hd, specCandidates, segmentsOf]
      · rw [ih _ (by simp [walkItem, h, hd])]
        simp [walkItem, h, specCandidates, segmentsOf]
    | discontinuity =>
      rw [List.foldl_cons, foldl_walk_after _ _ _ (by simp [walkItem])]
      simp [walkItem, specCandidates, segmentsOf]
    | other =>
      rw [List.foldl_cons, ih _ (by simpa [walkItem] using hd)]
      simp [walkItem, specCandidates, segmentsOf]

theorem walk_tsItems (lastTs : Finset String) (items : List Item) :
    (walk lastTs items).tsItems = specCandidates lastTs items := by
  simp [walk, foldl_walk_before]

theorem walk_thisTs (lastTs : Finset String) (items : List Item) (x : String) :
    x ∈ (walk lastTs items).thisTs ↔ ∃ v ∈ segmentsOf items, v.Segment = x := by
  simp [walk, foldl_walk_thisTs]

theorem segmentsOf_takeWhile_dropWhile (p : Item → Bool) (items : List Item) :
    segmentsOf (items.takeWhile p) ++ segmentsOf (items.dropWhile p) = segmentsOf items := by
  rw [← segmentsOf_append, List.takeWhile_append_dropWhile]

theorem specCandidates_sublist (lastTs : Finset String) (items : List Item) :
    (specCandidates lastTs items).Sublist (segmentsOf items) := by
  rw [← segmentsOf_takeWhile_dropWhile (fun i => decide (i ≠ Item.discontinuity)) items]
  exact List.Sublist.append (List.filter_sublist _) (List.Sublist.refl _)

theorem cap3_length (l : List SegmentItem) : (cap3 l).length = min 3 l.length := by
  unfold cap3
  split_ifs with h
  · simp only [List.length_drop]; omega
  · omega

theorem cap3_suffix (l : List SegmentItem) : ∃ dropped, l = dropped ++ cap3 l := by
  unfold cap3
  split_ifs with h
  · exact ⟨l.take (l.length - 3), (List.take_append_drop _ _).symm⟩
  · exact ⟨[], rfl⟩

/-! ## Lemmas on single moves -/

theorem segBody_frame (env : Env) (s : State) (v : SegmentItem) (rest : List SegmentItem)
    (t : Int) :
    (segBody env s v rest t).pc = .segs rest t
    ∧ (segBody env s v rest t).sequence = s.sequence
    ∧ (segBody env s v rest t).lastTs = s.lastTs
    ∧ (segBody env s v rest t).errcount = s.errcount
    ∧ (segBody env s v rest t).info.M3U8Count = s.info.M3U8Count
    ∧ (segBody env s v rest t).tsItems = s.tsItems
    ∧ (segBody env s v rest t).nFetch = s.nFetch
    ∧ (segBody env s v rest t).nSeg = s.nSeg + 1
    ∧ s.nErr ≤ (segBody env s v rest t).nErr
    ∧ gets (segBody env s v rest t).trace = gets s.trace ++ [v]
    ∧ (segBody env s v rest t).info.M3u8Info.length = s.info.M3u8Info.length + 1 := by
  unfold segBody
  cases env.seg s.nSeg <;> simp only [] <;> (try split_ifs) <;>
    simp [record, countTs, gets_append, gets]

theorem segStep_resolved (env : Env) (s : State) (v : SegmentItem) (rest : List SegmentItem)
    (t : Int) (hres : env.resolves v.Segment = true) :
    segStep env s v rest t = segBody env s v rest t := by
  simp [segStep, hres]

theorem segStep_unresolved (env : Env) (s : State) (v : SegmentItem)
    (rest : List SegmentItem) (t : Int) (hres : env.resolves v.Segment = false) :
    segStep env s v rest t = panicStep s := by
  simp [segStep, hres]

theorem segStep_frame (env : Env) (s : State) (v : SegmentItem) (rest : List SegmentItem)
    (t : Int) (hres : env.resolves v.Segment = true) :
    (segStep env s v rest t).pc = .segs rest t
    ∧ (segStep env s v rest t).sequence = s.sequence
    ∧ (segStep env s v rest t).lastTs = s.lastTs
    ∧ (segStep env s v rest t).errcount = s.errcount
    ∧ (segStep env s v rest t).info.M3U8Count = s.info.M3U8Count
    ∧ (segStep env s v rest t).tsItems = s.tsItems
    ∧ (segStep env s v rest t).nFetch = s.nFetch
    ∧ (segStep env s v rest t).nSeg = s.nSeg + 1
    ∧ s.nErr ≤ (segStep env s v rest t).nErr
    ∧ gets (segStep env s v rest t).trace = gets s.trace ++ [v]
    ∧ (segStep env s v rest t).info.M3u8Info.length = s.info.M3u8Info.length + 1 := by
  rw [segStep_resolved env s v rest t hres]
  exact segBody_frame env s v rest t

/-- What an iteration of the segment loop keeps whether or not the identifier
resolves. -/
theorem segStep_keep (env : Env) (s : State) (v : SegmentItem) (rest : List SegmentItem)
    (t : Int) :
    ((segStep env s v rest t).pc = .segs rest t ∨ (segStep env s v rest t).pc = .panicked)
    ∧ (segStep env s v rest t).sequence = s.sequence
    ∧ (segStep env s v rest t).lastTs = s.lastTs
    ∧ (segStep env s v rest t).errcount = s.errcount
    ∧ (segStep env s v rest t).info.M3U8Count = s.info.M3U8Count
    ∧ (segStep env s v rest t).tsItems = s.tsItems
    ∧ (segStep env s v rest t).nFetch = s.nFetch
    ∧ s.nErr ≤ (segStep env s v rest t).nErr := by
  cases hres : env.resolves v.Segment with
  | true =>
    obtain ⟨h1, h2, h3, h4, h5, h6, h7, -, h9, -, -⟩ := segStep_frame env s v rest t hres
    exact ⟨Or.inl h1, h2, h3, h4, h5, h6, h7, h9⟩
  | false =>
    rw [segStep_unresolved env s v rest t hres]
    simp [panicStep]

theorem finish_of_poll (env : Env) (fuel : Nat) (s : State) (h : s.pc = .poll) :
    finish env fuel s = s := by
  cases fuel <;> simp [finish, h]

theorem finish_of_done (env : Env) (fuel : Nat) (s : State) (h : s.pc = .done) :
    finish env fuel s = s := by
  cases fuel <;> simp [finish, h]

theorem finish_of_panicked (env : Env) (fuel : Nat) (s : State) (h : s.pc = .panicked) :
    finish env fuel s = s := by
  cases fuel <;> simp [finish, h]

theorem steps_add (env : Env) (m n : Nat) (s : State) :
    steps env (m + n) s = steps env n (steps env m s) := by
  induction m generalizing s with
  | zero => simp [steps]
  | succ m ih => rw [Nat.succ_add]; simp [steps, ih]

theorem steps_succ (env : Env) (n : Nat) (s : State) :
    steps env (n + 1) s = step env (steps env n s) := by
  rw [steps_add]; rfl

/-- The rest of a cycle, whether or not it runs to its end: it stops at
`poll` or at `panicked` and leaves the tracker and the playlist counters. -/
theorem finish_keep (env : Env) (rest : List SegmentItem) :
    ∀ (fuel : Nat) (s : State) (t : Int), s.pc = .segs rest t → rest.length < fuel →
      ((finish env fuel s).pc = .poll ∨ (finish env fuel s).pc = .panicked)
      ∧ (finish env fuel s).sequence = s.sequence
      ∧ (finish env fuel s).lastTs = s.lastTs
      ∧ (finish env fuel s).errcount = s.errcount
      ∧ (finish env fuel s).info.M3U8Count = s.info.M3U8Count
      ∧ (finish env fuel s).tsItems = s.tsItems
      ∧ (finish env fuel s).nFetch = s.nFetch := by
  induction rest with
  | nil =>
    intro fuel s t hpc hfuel
    obtain ⟨k, rfl⟩ : ∃ k, fuel = k + 1 := ⟨fuel - 1, by simp at hfuel; omega⟩
    have hs : step env s = sleepStep s t := by simp [step, hpc]
    have e : finish env (k + 1) s = sleepStep s t := by
      simp only [finish, hpc, hs]
      exact finish_of_poll env k (sleepStep s t) rfl
    rw [e]
    simp [sleepStep]
  | cons v rest ih =>
    intro fuel s t hpc hfuel
    obtain ⟨k, rfl⟩ : ∃ k, fuel = k + 1 := ⟨fuel - 1, by simp at hfuel; omega⟩
    have hs : step env s = segStep env s v rest t := by simp [step, hpc]
    have hk : rest.length < k := by simp at hfuel; omega
    have e : finish env (k + 1) s = finish env k (segStep env s v rest t) := by
      simp [finish, hpc, hs]
    rw [e]
    obtain ⟨f1, f2, f3, f4, f5, f6, f7, -⟩ := segStep_keep env s v rest t
    rcases f1 with f1 | f1
    · obtain ⟨h1, h2, h3, h4, h5, h6, h7⟩ := ih k (segStep env s v rest t) t f1 hk
      exact ⟨h1, h2.trans f2, h3.trans f3, h4.trans f4, h5.trans f5, h6.trans f6,
        h7.trans f7⟩
    · rw [finish_of_panicked env k _ f1]
      exact ⟨Or.inr f1, f2, f3, f4, f5, f6, f7⟩

theorem finish_segs (env : Env) (rest : List SegmentItem) :
    ∀ (fuel : Nat) (s : State) (t : Int), s.pc = .segs rest t → rest.length < fuel →
      (∀ x, x ∈ rest → env.resolves x.Segment = true) →
      (finish env fuel s).pc = .poll
      ∧ (finish env fuel s).sequence = s.sequence
      ∧ (finish env fuel s).lastTs = s.lastTs
      ∧ (finish env fuel s).errcount = s.errcount
      ∧ (finish env fuel s).info.M3U8Count = s.info.M3U8Count
      ∧ (finish env fuel s).tsItems = s.tsItems
      ∧ (finish env fuel s).nFetch = s.nFetch
      ∧ gets (finish env fuel s).trace = gets s.trace ++ rest
      ∧ finish env fuel s = steps env (rest.length + 1) s := by
  induction rest with
  | nil =>
    intro fuel s t hpc hfuel _
    obtain ⟨k, rfl⟩ : ∃ k, fuel = k + 1 := ⟨fuel - 1, by simp at hfuel; omega⟩
    have hs : step env s = sleepStep s t := by simp [step, hpc]
    have e : finish env (k + 1) s = sleepStep s t := by
      simp only [finish, hpc, hs]
      exact finish_of_poll env k (sleepStep s t) rfl
    rw [e]
    simp [steps, hs, sleepStep, gets_append, gets]
  | cons v rest ih =>
    intro fuel s t hpc hfuel hres
    obtain ⟨k, rfl⟩ : ∃ k, fuel = k + 1 := ⟨fuel - 1, by simp at hfuel; omega⟩
    have hs : step env s = segStep env s v rest t := by simp [step, hpc]
    have hf := segStep_frame env s v rest t (hres v (List.mem_cons_self _ _))
    have hk : rest.length < k := by simp at hfuel; omega
    have h := ih k (segStep env s v rest t) t hf.1 hk
      (fun x hx => hres x (List.mem_cons_of_mem _ hx))
    have e : finish env (k + 1) s = finish env k (segStep env s v rest t) := by
      simp [finish, hpc, hs]
    rw [e]
    obtain ⟨h1, h2, h3, h4, h5, h6, h7, h8, h9⟩ := h
    obtain ⟨-, f2, f3, f4, f5, f6, f7, -, -, f10, -⟩ := hf
    refine ⟨h1, h2.trans f2, h3.trans f3, h4.trans f4, h5.trans f5, h6.trans f6,
      h7.trans f7, ?_, ?_⟩
    · rw [h8, f10]; simp
    · rw [h9]; simp [steps, hs]

/-! ## The playlist move, case by case -/

theorem step_stale (env : Env) (s : State) (r : Response) (pl : Playlist)
    (hpc : s.pc = .poll) (hf : env.fetch s.nFetch = .resp r) (he : env.err s.nErr = false)
    (hr : readM3U8 r = .ok pl) (hseq : pl.Sequence ≤ s.sequence) :
    step env s =
      { s with
        nFetch := s.nFetch + 1, tsItems := [], nErr := s.nErr + 1, errcount := 0,
        info := { s.info with LastM3u8 := pl.Text },
        trace := s.trace ++ [.getPlaylist, .sleep 1], pc := .poll } := by
  simp [step, pollStep, hpc, hf, he, hr, hseq]

theorem step_fresh (env : Env) (s : State) (r : Response) (pl : Playlist)
    (hpc : s.pc = .poll) (hf : env.fetch s.nFetch = .resp r) (he : env.err s.nErr = false)
    (hr : readM3U8 r = .ok pl) (hseq : s.sequence < pl.Sequence) :
    step env s =
      { s with
        nFetch := s.nFetch + 1, nErr := s.nErr + 1, errcount := 0,
        info := { s.info with
          LastM3u8 := pl.Text, M3U8Count := s.info.M3U8Count + 1, M3u8Info := [] },
        sequence := pl.Sequence, lastTs := (walk s.lastTs pl.Items).thisTs,
        tsItems := cap3 (walk s.lastTs pl.Items).tsItems,
        trace := s.trace ++ [.getPlaylist],
        pc := .segs (cap3 (walk s.lastTs pl.Items).tsItems) pl.Target } := by
  have h : ¬ pl.Sequence ≤ s.sequence := not_le.mpr hseq
  simp [step, pollStep, hpc, hf, he, hr, h]

theorem step_transportErr (env : Env) (s : State)
    (hpc : s.pc = .poll) (hf : env.fetch s.nFetch = .transportErr) :
    step env s =
      { s with
        nFetch := s.nFetch + 1, tsItems := [],
        trace := s.trace ++ [.getPlaylist, .cancel], pc := .done } := by
  simp [step, pollStep, hpc, hf, terminate]

theorem step_cancelled (env : Env) (s : State) (r : Response)
    (hpc : s.pc = .poll) (hf : env.fetch s.nFetch = .resp r) (he : env.err s.nErr = true) :
    step env s =
      { s with
        nFetch := s.nFetch + 1, tsItems := [], nErr := s.nErr + 1,
        trace := s.trace ++ [.getPlaylist, .cancel], pc := .done } := by
  simp [step, pollStep, hpc, hf, he, terminate]

theorem step_readErr (env : Env) (s : State) (r : Response) (e : ReadError)
    (hpc : s.pc = .poll) (hf : env.fetch s.nFetch = .resp r) (he : env.err s.nErr = false)
    (hr : readM3U8 r = .error e) :
    step env s =
      if s.errcount + 1 > 10 then
        { s with
          nFetch := s.nFetch + 1, tsItems := [], nErr := s.nErr + 1,
          errcount := s.errcount + 1,
          trace := s.trace ++ [.getPlaylist, .cancel], pc := .done }
      else
        { s with
          nFetch := s.nFetch + 1, tsItems := [], nErr := s.nErr + 1,
          errcount := s.errcount + 1,
          trace := s.trace ++ [.getPlaylist], pc := .poll } := by
  by_cases h : s.errcount + 1 > 10 <;>
    simp [step, pollStep, hpc, hf, he, hr, terminate, h]

/-- A playlist move that does not meet a playlist above the watermark leaves
the tracker and the counters alone and requests no segment. -/
theorem step_poll_no_advance (env : Env) (s : State) (hpc : s.pc = .poll)
    (h : ∀ r pl, env.fetch s.nFetch = .resp r → readM3U8 r = .ok pl →
      pl.Sequence ≤ s.sequence) :
    ((step env s).pc = .poll ∨ (step env s).pc = .done)
    ∧ (step env s).tsItems = []
    ∧ (step env s).sequence = s.sequence
    ∧ (step env s).lastTs = s.lastTs
    ∧ (step env s).info.M3U8Count = s.info.M3U8Count
    ∧ (step env s).info.TSCount = s.info.TSCount
    ∧ (step env s).info.M3u8Info = s.info.M3u8Info
    ∧ gets (step env s).trace = gets s.trace
    ∧ feeds (step env s).trace = feeds s.trace
    ∧ (step env s).nFetch = s.nFetch + 1 := by
  cases hf : env.fetch s.nFetch with
  | transportErr =>
    rw [step_transportErr env s hpc hf]
    simp [gets_append, feeds_append, gets, feeds]
  | resp r =>
    cases he : env.err s.nErr with
    | true =>
      rw [step_cancelled env s r hpc hf he]
      simp [gets_append, feeds_append, gets, feeds]
    | false =>
      cases hr : readM3U8 r with
      | ok pl =>
        rw [step_stale env s r pl hpc hf he hr (h r pl hf hr)]
        simp [gets_append, feeds_append, gets, feeds]
      | error e =>
        rw [step_readErr env s r e hpc hf he hr]
        split_ifs <;> simp [gets_append, feeds_append, gets, feeds]

theorem cycle_of_poll (env : Env) (s : State) (h : (step env s).pc = .poll) :
    cycle env s = step env s := by
  unfold cycle
  exact finish_of_poll env _ _ h

theorem cycle_of_done (env : Env) (s : State) (h : (step env s).pc = .done) :
    cycle env s = step env s := by
  unfold cycle
  exact finish_of_done env _ _ h

theorem cycle_of_panicked (env : Env) (s : State) (h : (step env s).pc = .panicked) :
    cycle env s = step env s := by
  unfold cycle
  exact finish_of_panicked env _ _ h

theorem cycle_no_advance (env : Env) (s : State) (hpc : s.pc = .poll)
    (h : ∀ r pl, env.fetch s.nFetch = .resp r → readM3U8 r = .ok pl →
      pl.Sequence ≤ s.sequence) :
    cycle env s = step env s := by
  rcases (step_poll_no_advance env s hpc h).1 with h1 | h1
  · exact cycle_of_poll env s h1
  · exact cycle_of_done env s h1

theorem step_of_done (env : Env) (s : State) (h : s.pc = .done) : step env s = s := by
  simp [step, h]

theorem step_of_panicked (env : Env) (s : State) (h : s.pc = .panicked) :
    step env s = s := by
  simp [step, h]

/-- A whole non-stale cycle, whether or not it runs to its end: it stops at
`poll` or at `panicked`, with the new watermark and seen-set and one more
counted playlist. -/
theorem cycle_fresh_keep (env : Env) (s : State) (r : Response) (pl : Playlist)
    (hpc : s.pc = .poll) (hf : env.fetch s.nFetch = .resp r) (he : env.err s.nErr = false)
    (hr : readM3U8 r = .ok pl) (hseq : s.sequence < pl.Sequence) :
    ((cycle env s).pc = .poll ∨ (cycle env s).pc = .panicked)
    ∧ (cycle env s).sequence = pl.Sequence
    ∧ (cycle env s).lastTs = (walk s.lastTs pl.Items).thisTs
    ∧ (cycle env s).info.M3U8Count = s.info.M3U8Count + 1
    ∧ (cycle env s).nFetch = s.nFetch + 1 := by
  have hs := step_fresh env s r pl hpc hf he hr hseq
  have hts : (step env s).tsItems = cap3 (walk s.lastTs pl.Items).tsItems := by rw [hs]
  have hpc1 : (step env s).pc = .segs (cap3 (walk s.lastTs pl.Items).tsItems) pl.Target := by
    rw [hs]
  have hfin := finish_keep env (cap3 (walk s.lastTs pl.Items).tsItems)
    ((cap3 (walk s.lastTs pl.Items).tsItems).length + 1) (step env s) pl.Target hpc1
    (Nat.lt_succ_self _)
  unfold cycle
  rw [hts]
  obtain ⟨h1, h2, h3, -, h5, -, h7⟩ := hfin
  refine ⟨h1, ?_, ?_, ?_, ?_⟩
  · rw [h2, hs]
  · rw [h3, hs]
  · rw [h5, hs]
  · rw [h7, hs]

/-- A whole non-stale cycle whose selected identifiers resolve: it ends at
`poll` and requests exactly the capped selection. -/
theorem cycle_fresh (env : Env) (s : State) (r : Response) (pl : Playlist)
    (hpc : s.pc = .poll) (hf : env.fetch s.nFetch = .resp r) (he : env.err s.nErr = false)
    (hr : readM3U8 r = .ok pl) (hseq : s.sequence < pl.Sequence)
    (hres : ∀ x, x ∈ cap3 (walk s.lastTs pl.Items).tsItems → env.resolves x.Segment = true) :
    (cycle env s).pc = .poll
    ∧ gets (cycle env s).trace = gets s.trace ++ cap3 (walk s.lastTs pl.Items).tsItems
    ∧ cycle env s = steps env ((cap3 (walk s.lastTs pl.Items).tsItems).length + 2) s := by
  have hs := step_fresh env s r pl hpc hf he hr hseq
  have hts : (step env s).tsItems = cap3 (walk s.lastTs pl.Items).tsItems := by rw [hs]
  have hpc1 : (step env s).pc = .segs (cap3 (walk s.lastTs pl.Items).tsItems) pl.Target := by
    rw [hs]
  have hfin := finish_segs env (cap3 (walk s.lastTs pl.Items).tsItems)
    ((cap3 (walk s.lastTs pl.Items).tsItems).length + 1) (step env s) pl.Target hpc1
    (Nat.lt_succ_self _) hres
  unfold cycle
  rw [hts]
  obtain ⟨h1, -, -, -, -, -, -, h8, h9⟩ := hfin
  refine ⟨h1, ?_, ?_⟩
  · rw [h8, hs]; simp [gets_append, gets]
  · rw [h9]; rfl

theorem cycle_at_done (env : Env) (s : State) (h : s.pc = .done) : cycle env s = s := by
  have hs := step_of_done env s h
  rw [cycle_of_done env s (by rw [hs]; exact h), hs]

theorem cycle_at_panicked (env : Env) (s : State) (h : s.pc = .panicked) :
    cycle env s = s := by
  have hs := step_of_panicked env s h
  rw [cycle_of_panicked env s (by rw [hs]; exact h), hs]

/-- Polling again a playlist that is not above the watermark (or polling
after the loop has ended) changes neither the tracker, nor the counters,
nor the lists of requested and fed segments. -/
theorem repoll_frame (env : Env) (s : State) (r : Response) (pl : Playlist)
    (h : s.pc = .done ∨ s.pc = .panicked ∨
      (s.pc = .poll ∧ env.fetch s.nFetch = .resp r ∧ readM3U8 r = .ok pl
        ∧ pl.Sequence ≤ s.sequence)) :
    (cycle env s).info.M3U8Count = s.info.M3U8Count
    ∧ (cycle env s).info.TSCount = s.info.TSCount
    ∧ (cycle env s).sequence = s.sequence
    ∧ (cycle env s).lastTs = s.lastTs
    ∧ gets (cycle env s).trace = gets s.trace
    ∧ feeds (cycle env s).trace = feeds s.trace := by
  rcases h with h | h | ⟨hpc, hf, hr, hseq⟩
  · rw [cycle_at_done env s h]; simp
  · rw [cycle_at_panicked env s h]; simp
  · have hall : ∀ r1 pl1, env.fetch s.nFetch = .resp r1 → readM3U8 r1 = .ok pl1 →
        pl1.Sequence ≤ s.sequence := by
      intro r1 pl1 h1 h2
      rw [hf] at h1
      cases h1
      rw [hr] at h2
      cases h2
      exact hseq
    rw [cycle_no_advance env s hpc hall]
    obtain ⟨-, -, h3, h4, h5, h6, -, h8, h9, -⟩ := step_poll_no_advance env s hpc hall
    exact ⟨h5, h6, h3, h4, h8, h9⟩

/-- C1: a poll that parses a playlist whose sequence number is not above the
watermark selects nothing (the cycle is the single playlist request followed by
the one second sleep: no segment request, no feed) and leaves the watermark,
the seen-set, `M3U8Count` and `TSCount` as they were. Polling the same playlist
answer twice in a row counts at most one playlist in total, and the second
cycle requests and feeds nothing. -/
theorem C1_stale_poll_is_noop (env : Env) (s : State) (r : Response) (pl : Playlist)
    (hpc : s.pc = .poll) (hf : env.fetch s.nFetch = .resp r) (hr : readM3U8 r = .ok pl) :
    (env.err s.nErr = false → pl.Sequence ≤ s.sequence →
      cycle env s = step env s
      ∧ (step env s).pc = .poll
      ∧ (step env s).tsItems = []
      ∧ (step env s).trace = s.trace ++ [.getPlaylist, .sleep 1]
      ∧ (step env s).sequence = s.sequence
      ∧ (step env s).lastTs = s.lastTs
      ∧ (step env s).info.M3U8Count = s.info.M3U8Count
      ∧ (step env s).info.TSCount = s.info.TSCount)
    ∧ (env.fetch (s.nFetch + 1) = .resp r →
      (cycle env (cycle env s)).info.M3U8Count ≤ s.info.M3U8Count + 1
      ∧ (cycle env (cycle env s)).info.M3U8Count = (cycle env s).info.M3U8Count
      ∧ (cycle env (cycle env s)).info.TSCount = (cycle env s).info.TSCount
      ∧ (cycle env (cycle env s)).sequence = (cycle env s).sequence
      ∧ (cycle env (cycle env s)).lastTs = (cycle env s).lastTs
      ∧ gets (cycle env (cycle env s)).trace = gets (cycle env s).trace
      ∧ feeds (cycle env (cycle env s)).trace = feeds (cycle env s).trace) := by
  constructor
  · intro he hseq
    have hs := step_stale env s r pl hpc hf he hr hseq
    refine ⟨cycle_of_poll env s (by rw [hs]), ?_⟩
    rw [hs]
    simp
  · intro hf2
    -- first cycle: where it ends and how much it counted
    have key : (cycle env s).info.M3U8Count ≤ s.info.M3U8Count + 1
        ∧ ((cycle env s).pc = .done ∨ (cycle env s).pc = .panicked ∨
          ((cycle env s).pc = .poll ∧ env.fetch (cycle env s).nFetch = .resp r
            ∧ readM3U8 r = .ok pl ∧ pl.Sequence ≤ (cycle env s).sequence)) := by
      cases he : env.err s.nErr with
      | true =>
        have hs := step_cancelled env s r hpc hf he
        rw [cycle_of_done env s (by rw [hs]), hs]
        simp
      | false =>
        by_cases hseq : pl.Sequence ≤ s.sequence
        · have hs := step_stale env s r pl hpc hf he hr hseq
          rw [cycle_of_poll env s (by rw [hs]), hs]
          simp [hf2, hr, hseq]
        · obtain ⟨h1, h2, -, h4, h5⟩ :=
            cycle_fresh_keep env s r pl hpc hf he hr (not_le.mp hseq)
          refine ⟨by rw [h4], ?_⟩
          rcases h1 with h1 | h1
          · refine Or.inr (Or.inr ⟨h1, ?_, hr, ?_⟩)
            · rw [h5, hf2]
            · rw [h2]
          · exact Or.inr (Or.inl h1)
    obtain ⟨hcount, hcase⟩ := key
    obtain ⟨h1, h2, h3, h4, h5, h6⟩ := repoll_frame env (cycle env s) r pl hcase
    exact ⟨by rw [h1]; exact hcount, h1, h2, h3, h4, h5, h6⟩

/-- Witness of C1 on `envSame`: after the first cycle (three moves) the
watermark is 1 and the same playlist is polled again. -/
theorem C1_stale_poll_is_noop_witness :
    (steps envSame 3 (init info0)).sequence = 1
    ∧ (step envSame (steps envSame 3 (init info0))).tsItems = []
    ∧ (step envSame (steps envSame 3 (init info0))).sequence = 1
    ∧ (step envSame (steps envSame 3 (init info0))).info.M3U8Count = 1
    ∧ (cycle envSame (cycle envSame (init info0))).info.M3U8Count ≤ 0 + 1 :=
  ⟨by decide,
    ((C1_stale_poll_is_noop envSame (steps envSame 3 (init info0)) ⟨"", none, some plFirst⟩
      plFirst (by decide) (by decide) rfl).1 (by decide) (by decide)).2.2.1,
    by decide, by decide,
    ((C1_stale_poll_is_noop envSame (init info0) ⟨"", none, some plFirst⟩
      plFirst (by decide) (by decide) rfl).2 (by decide)).1⟩

/-- C2: on a playlist above the watermark the candidate list built by the walk
(before the cap) is the list the specification describes: in playlist order,
the segment items not in the previous seen-set before the first discontinuity
marker and every segment item after it, a subsequence of the playlist's segment
items; the list kept for the cycle is the cap of it; the new seen-set holds
exactly the identifiers of all segment items of the playlist; the new watermark
is the playlist's sequence number. -/
theorem C2_selection_rule (env : Env) (s : State) (r : Response) (pl : Playlist)
    (hpc : s.pc = .poll) (hf : env.fetch s.nFetch = .resp r) (he : env.err s.nErr = false)
    (hr : readM3U8 r = .ok pl) (hseq : s.sequence < pl.Sequence) :
    (walk s.lastTs pl.Items).tsItems = specCandidates s.lastTs pl.Items
    ∧ (walk s.lastTs pl.Items).tsItems.Sublist (segmentsOf pl.Items)
    ∧ (step env s).tsItems = cap3 (walk s.lastTs pl.Items).tsItems
    ∧ (∀ x, x ∈ (step env s).lastTs ↔ ∃ v ∈ segmentsOf pl.Items, v.Segment = x)
    ∧ (cycle env s).lastTs = (step env s).lastTs
    ∧ (step env s).sequence = pl.Sequence
    ∧ (cycle env s).sequence = pl.Sequence := by
  have hs := step_fresh env s r pl hpc hf he hr hseq
  obtain ⟨-, h2, h3, -, -⟩ := cycle_fresh_keep env s r pl hpc hf he hr hseq
  refine ⟨walk_tsItems _ _, ?_, by rw [hs], ?_, ?_, by rw [hs], h2⟩
  · rw [walk_tsItems]; exact specCandidates_sublist _ _
  · intro x; rw [hs]; exact walk_thisTs _ _ x
  · rw [h3, hs]

/-- Witness of C2 on `envShort`: the second poll, with `a` in the seen-set. -/
theorem C2_selection_rule_witness :
    (steps envShort 3 (init info0)).sequence < plShort.Sequence
    ∧ (walk (steps envShort 3 (init info0)).lastTs plShort.Items).tsItems
        = specCandidates (steps envShort 3 (init info0)).lastTs plShort.Items
    ∧ (step envShort (steps envShort 3 (init info0))).sequence = plShort.Sequence :=
  ⟨by decide,
    (C2_selection_rule envShort (steps envShort 3 (init info0)) ⟨"", none, some plShort⟩
      plShort (by decide) (by decide) (by decide) rfl (by decide)).1,
    (C2_selection_rule envShort (steps envShort 3 (init info0)) ⟨"", none, some plShort⟩
      plShort (by decide) (by decide) (by decide) rfl (by decide)).2.2.2.2.2.1⟩

/-- The segments requested by the rest of a cycle are an initial part of the
segments still to handle. -/
theorem finish_gets_prefix (env : Env) (rest : List SegmentItem) :
    ∀ (fuel : Nat) (s : State) (t : Int), s.pc = .segs rest t → rest.length < fuel →
      ∃ k, gets (finish env fuel s).trace = gets s.trace ++ rest.take k := by
  induction rest with
  | nil =>
    intro fuel s t hpc hfuel
    exact ⟨0, by simpa using (finish_segs env [] fuel s t hpc hfuel (by simp)).2.2.2.2.2.2.2.1⟩
  | cons v rest ih =>
    intro fuel s t hpc hfuel
    obtain ⟨k, rfl⟩ : ∃ k, fuel = k + 1 := ⟨fuel - 1, by simp at hfuel; omega⟩
    have hs : step env s = segStep env s v rest t := by simp [step, hpc]
    have hk : rest.length < k := by simp at hfuel; omega
    have e : finish env (k + 1) s = finish env k (segStep env s v rest t) := by
      simp [finish, hpc, hs]
    rw [e]
    cases hres : env.resolves v.Segment with
    | true =>
      have hf := segStep_frame env s v rest t hres
      obtain ⟨j, hj⟩ := ih k (segStep env s v rest t) t hf.1 hk
      exact ⟨j + 1, by rw [hj, hf.2.2.2.2.2.2.2.2.2.1]; simp⟩
    | false =>
      rw [segStep_unresolved env s v rest t hres, finish_of_panicked env k _ rfl]
      exact ⟨0, by simp [panicStep, gets_append, gets]⟩

/-- C3: when the walk yields more than three candidates, the list kept for
the cycle is exactly their last three, in order; with three or fewer it is the
candidate list itself; its length is `min 3` of the number of candidates. The
segments requested during the cycle are an initial part of that list, and
exactly that list, in order, when its identifiers resolve as URLs. -/
theorem C3_cap_of_three (env : Env) (s : State) (r : Response) (pl : Playlist)
    (hpc : s.pc = .poll) (hf : env.fetch s.nFetch = .resp r) (he : env.err s.nErr = false)
    (hr : readM3U8 r = .ok pl) (hseq : s.sequence < pl.Sequence) :
    (3 < (walk s.lastTs pl.Items).tsItems.length →
      (step env s).tsItems.length = 3
      ∧ ∃ dropped, (walk s.lastTs pl.Items).tsItems = dropped ++ (step env s).tsItems)
    ∧ ((walk s.lastTs pl.Items).tsItems.length ≤ 3 →
      (step env s).tsItems = (walk s.lastTs pl.Items).tsItems)
    ∧ (step env s).tsItems.length = min 3 (walk s.lastTs pl.Items).tsItems.length
    ∧ (∃ k, gets (cycle env s).trace = gets s.trace ++ (step env s).tsItems.take k)
    ∧ ((∀ x, x ∈ (step env s).tsItems → env.resolves x.Segment = true) →
      gets (cycle env s).trace = gets s.trace ++ (step env s).tsItems) := by
  have hs := step_fresh env s r pl hpc hf he hr hseq
  have hts : (step env s).tsItems = cap3 (walk s.lastTs pl.Items).tsItems := by rw [hs]
  have hpc1 : (step env s).pc = .segs (cap3 (walk s.lastTs pl.Items).tsItems) pl.Target := by
    rw [hs]
  have hgs : gets (step env s).trace = gets s.trace := by
    rw [hs]; simp [gets_append, gets]
  obtain ⟨k, hk⟩ := finish_gets_prefix env _ ((step env s).tsItems.length + 1) (step env s)
    pl.Target hpc1 (by rw [hts]; exact Nat.lt_succ_self _)
  rw [hts]
  refine ⟨fun h => ⟨?_, cap3_suffix _⟩, fun h => ?_, cap3_length _, ⟨k, ?_⟩, fun hres => ?_⟩
  · rw [cap3_length]; omega
  · unfold cap3
    rw [if_neg (by omega)]
  · unfold cycle
    rw [hk, hgs]
  · exact (cycle_fresh env s r pl hpc hf he hr hseq hres).2.1

/-- Witness of C3 on `envDisc`: four candidates `a b c d`, three kept. -/
theorem C3_cap_of_three_witness :
    (walk (steps envDisc 3 (init info0)).lastTs plDisc.Items).tsItems.length = 4
    ∧ (step envDisc (steps envDisc 3 (init info0))).tsItems.length
        = min 3 (walk (steps envDisc 3 (init info0)).lastTs plDisc.Items).tsItems.length
    ∧ (step envDisc (steps envDisc 3 (init info0))).tsItems = [⟨"b"⟩, ⟨"c"⟩, ⟨"d"⟩]
    ∧ gets (cycle envDisc (steps envDisc 3 (init info0))).trace
        = gets (steps envDisc 3 (init info0)).trace
          ++ (step envDisc (steps envDisc 3 (init info0))).tsItems :=
  ⟨by decide,
    (C3_cap_of_three envDisc (steps envDisc 3 (init info0)) ⟨"", none, some plDisc⟩
      plDisc (by decide) (by decide) (by decide) rfl (by decide)).2.2.1,
    by decide,
    (C3_cap_of_three envDisc (steps envDisc 3 (init info0)) ⟨"", none, some plDisc⟩
      plDisc (by decide) (by decide) (by decide) rfl (by decide)).2.2.2.2 (fun _ _ => rfl)⟩

theorem steps_readErr_run (env : Env) (s : State) (hpc : s.pc = .poll)
    (hfail : ∀ i, i < 11 → ∃ r e, env.fetch (s.nFetch + i) = .resp r ∧ readM3U8 r = .error e)
    (herr : ∀ i, i < 11 → env.err (s.nErr + i) = false) :
    ∀ k, s.errcount + k ≤ 10 →
      (steps env k s).pc = .poll ∧ (steps env k s).errcount = s.errcount + k
      ∧ (steps env k s).nFetch = s.nFetch + k ∧ (steps env k s).nErr = s.nErr + k := by
  intro k
  induction k with
  | zero => intro _; simp [steps, hpc]
  | succ k ih =>
    intro hk
    obtain ⟨h1, h2, h3, h4⟩ := ih (by omega)
    obtain ⟨r, e, hf, hr⟩ := hfail k (by omega)
    have he := herr k (by omega)
    rw [← h3] at hf
    rw [← h4] at he
    rw [steps_succ, step_readErr env _ r e h1 hf he hr, if_neg (by rw [h2]; omega)]
    simp only [h2, h3, h4]
    refine ⟨trivial, ?_, ?_, ?_⟩ <;> omega

/-- C5, as stated, fails on `envBadTen`: ten playlist answers in a row fail
to parse from the start, and the loop has not returned; it issues an eleventh
request, whose success resets the counter and starts a cycle. On `envBad` the
loop returns only at the eleventh failure. -/
theorem C5_counterexample :
    envBadTen.fetch 0 = badResp
    ∧ envBadTen.fetch 9 = badResp
    ∧ envBadTen.fetch 10 = plainResp plFirst
    ∧ readM3U8 ⟨"", none, none⟩ = .error .parse
    ∧ (steps envBadTen 10 (init info0)).nFetch = 10
    ∧ (steps envBadTen 10 (init info0)).errcount = 10
    ∧ (steps envBadTen 10 (init info0)).pc = .poll
    ∧ (steps envBadTen 11 (init info0)).pc = .segs [⟨"a"⟩] 2
    ∧ (steps envBadTen 11 (init info0)).errcount = 0
    ∧ (steps envBad 10 (init info0)).pc = .poll
    ∧ (steps envBad 11 (init info0)).pc = .done
    ∧ (steps envBad 11 (init info0)).nFetch = 11 := by
  refine ⟨by decide, by decide, by decide, rfl, by decide, by decide, by decide, by decide,
    by decide, by decide, by decide, by decide⟩

/-- C5, amended: with the counter at 0 (at the start, or after a playlist was
read), a run of playlist answers that arrive but fail in `readM3U8` keeps the
loop polling through the tenth failure, the counter counting them, and makes it
return at the eleventh (the counter exceeds 10); any playlist that is read, a
stale one included, sets the counter back to 0 without ending the loop. -/
theorem C5_failure_cap (env : Env) (s : State) (hpc : s.pc = .poll) :
    (s.errcount = 0 →
      (∀ i, i < 11 → ∃ r e, env.fetch (s.nFetch + i) = .resp r ∧ readM3U8 r = .error e) →
      (∀ i, i < 11 → env.err (s.nErr + i) = false) →
        (∀ k, k ≤ 10 → (steps env k s).pc = .poll ∧ (steps env k s).errcount = k)
        ∧ (steps env 11 s).pc = .done
        ∧ (steps env 11 s).errcount = 11)
    ∧ (∀ r pl, env.fetch s.nFetch = .resp r → env.err s.nErr = false →
        readM3U8 r = .ok pl →
          (step env s).errcount = 0 ∧ (step env s).pc ≠ .done) := by
  constructor
  · intro h0 hfail herr
    have run := steps_readErr_run env s hpc hfail herr
    constructor
    · intro k hk
      obtain ⟨h1, h2, -, -⟩ := run k (by omega)
      exact ⟨h1, by rw [h2, h0]; simp⟩
    · obtain ⟨h1, h2, h3, h4⟩ := run 10 (by omega)
      obtain ⟨r, e, hf, hr⟩ := hfail 10 (by omega)
      have he := herr 10 (by omega)
      rw [← h3] at hf
      rw [← h4] at he
      rw [steps_succ, step_readErr env _ r e h1 hf he hr, if_pos (by rw [h2]; omega)]
      simp only [h2, h0]
      exact ⟨trivial, trivial⟩
  · intro r pl hf he hr
    by_cases hseq : pl.Sequence ≤ s.sequence
    · rw [step_stale env s r pl hpc hf he hr hseq]; simp
    · rw [step_fresh env s r pl hpc hf he hr (not_le.mp hseq)]; simp

/-- Witness of C5 (amended) on `envBad`, from the initial state. -/
theorem C5_failure_cap_witness :
    (init info0).errcount = 0
    ∧ ((steps envBad 9 (init info0)).pc = .poll ∧ (steps envBad 9 (init info0)).errcount = 9)
    ∧ ((steps envBad 10 (init info0)).pc = .poll ∧ (steps envBad 10 (init info0)).errcount = 10)
    ∧ (steps envBad 11 (init info0)).pc = .done
    ∧ (step envSame (init info0)).errcount = 0 :=
  ⟨rfl,
    ((C5_failure_cap envBad (init info0) rfl).1 rfl
      (fun _ _ => ⟨⟨"", none, none⟩, .parse, rfl, rfl⟩) (fun _ _ => rfl)).1 9 (by decide),
    ((C5_failure_cap envBad (init info0) rfl).1 rfl
      (fun _ _ => ⟨⟨"", none, none⟩, .parse, rfl, rfl⟩) (fun _ _ => rfl)).1 10 (by decide),
    ((C5_failure_cap envBad (init info0) rfl).1 rfl
      (fun _ _ => ⟨⟨"", none, none⟩, .parse, rfl, rfl⟩) (fun _ _ => rfl)).2.1,
    ((C5_failure_cap envSame (init info0) rfl).2 ⟨"", none, some plFirst⟩ plFirst
      rfl rfl rfl).1⟩

/-- C6, as stated, fails on `envTransport`: a single transport failure of the
playlist request, with the counter at 0, ends the loop at once; the counter is
not incremented and no further request is made. -/
theorem C6_counterexample :
    envTransport.fetch 0 = .transportErr
    ∧ (init info0).errcount = 0
    ∧ (step envTransport (init info0)).pc = .done
    ∧ (step envTransport (init info0)).errcount = 0
    ∧ (step envTransport (init info0)).trace = [.getPlaylist, .cancel]
    ∧ (steps envTransport 5 (init info0)).nFetch = 1 := by
  decide

/-- C6, amended: a gzip decompression failure and a playlist parse failure
share one retry path, the resulting state does not depend on which of the two
occurred: the counter goes up by one, and the loop returns when the counter
then exceeds 10 and polls again otherwise, tracker and counters untouched. A
transport failure of the playlist request is not on that path: it ends the
loop at once, whatever the counter, and leaves the counter as it was. -/
theorem C6_read_failures_retry (env : Env) (s : State) (hpc : s.pc = .poll) :
    (∀ r e, env.fetch s.nFetch = .resp r → env.err s.nErr = false →
      readM3U8 r = .error e →
        step env s =
          (if s.errcount + 1 > 10 then
            { s with
              nFetch := s.nFetch + 1, tsItems := [], nErr := s.nErr + 1,
              errcount := s.errcount + 1,
              trace := s.trace ++ [.getPlaylist, .cancel], pc := .done }
          else
            { s with
              nFetch := s.nFetch + 1, tsItems := [], nErr := s.nErr + 1,
              errcount := s.errcount + 1,
              trace := s.trace ++ [.getPlaylist], pc := .poll })
        ∧ (step env s).errcount = s.errcount + 1
        ∧ ((step env s).pc = .done ↔ 10 < s.errcount + 1)
        ∧ ((step env s).pc = .poll ↔ s.errcount + 1 ≤ 10))
    ∧ (env.fetch s.nFetch = .transportErr →
        (step env s).pc = .done ∧ (step env s).errcount = s.errcount
        ∧ (step env s).trace = s.trace ++ [.getPlaylist, .cancel]) := by
  constructor
  · intro r e hf he hr
    have hs := step_readErr env s r e hpc hf he hr
    refine ⟨hs, ?_⟩
    rw [hs]
    by_cases h : s.errcount + 1 > 10
    · rw [if_pos h]; simp; omega
    · rw [if_neg h]; simp; omega
  · intro hf
    rw [step_transportErr env s hpc hf]
    simp

/-- Witness of C6 (amended): a parse failure on `envBad`, a gzip failure on
`envBadGzip` and a transport failure on `envTransport`, from the initial state. -/
theorem C6_read_failures_retry_witness :
    readM3U8 ⟨"gzip", none, none⟩ = .error .gzip
    ∧ (step envBad (init info0)).errcount = 0 + 1
    ∧ (step envBadGzip (init info0)).errcount = 0 + 1
    ∧ (step envTransport (init info0)).pc = .done :=
  ⟨rfl,
    ((C6_read_failures_retry envBad (init info0) rfl).1 ⟨"", none, none⟩ .parse
      rfl rfl rfl).2.1,
    ((C6_read_failures_retry envBadGzip (init info0) rfl).1 ⟨"gzip", none, none⟩ .gzip
      rfl rfl rfl).2.1,
    ((C6_read_failures_retry envTransport (init info0) rfl).2 rfl).1⟩

/-! ## The consumer's error signal -/

theorem step_bound (env : Env) (s : State)
    (hts : s.tsItems.length ≤ 3) (hinfo : s.info.M3u8Info.length ≤ 3)
    (hseg : ∀ rest t, s.pc = .segs rest t →
      s.info.M3u8Info.length + rest.length = s.tsItems.length) :
    (step env s).tsItems.length ≤ 3
    ∧ (step env s).info.M3u8Info.length ≤ 3
    ∧ (∀ rest t, (step env s).pc = .segs rest t →
        (step env s).info.M3u8Info.length + rest.length = (step env s).tsItems.length) := by
  cases hpc : s.pc with
  | poll =>
    cases hf : env.fetch s.nFetch with
    | transportErr =>
      rw [step_transportErr env s hpc hf]
      simpa using hinfo
    | resp r =>
      cases he : env.err s.nErr with
      | true =>
        rw [step_cancelled env s r hpc hf he]
        simpa using hinfo
      | false =>
        cases hr : readM3U8 r with
        | ok pl =>
          by_cases hseq : pl.Sequence ≤ s.sequence
          · rw [step_stale env s r pl hpc hf he hr hseq]
            simpa using hinfo
          · rw [step_fresh env s r pl hpc hf he hr (not_le.mp hseq)]
            have hc := cap3_length (walk s.lastTs pl.Items).tsItems
            refine ⟨by simp only [hc]; omega, by simp, ?_⟩
            intro rest t h
            simp only [PC.segs.injEq] at h
            simp [h.1]
        | error e =>
          rw [step_readErr env s r e hpc hf he hr]
          split_ifs <;> simpa using hinfo
  | segs rest t =>
    have h0 := hseg rest t hpc
    cases rest with
    | nil =>
      have hs : step env s = sleepStep s t := by simp [step, hpc]
      rw [hs]
      simp [sleepStep, hts, hinfo]
    | cons v rest =>
      have hs : step env s = segStep env s v rest t := by simp [step, hpc]
      cases hres : env.resolves v.Segment with
      | true =>
        have hf := segStep_frame env s v rest t hres
        rw [hs, hf.2.2.2.2.2.1, hf.2.2.2.2.2.2.2.2.2.2]
        simp only [List.length_cons] at h0
        refine ⟨hts, by omega, ?_⟩
        intro rest1 t1 h
        rw [hf.1] at h
        simp only [PC.segs.injEq] at h
        rw [← h.1]
        omega
      | false =>
        rw [hs, segStep_unresolved env s v rest t hres]
        simp [panicStep, hts, hinfo]
  | done =>
    rw [step_of_done env s hpc]
    exact ⟨hts, hinfo, hseg⟩
  | panicked =>
    rw [step_of_panicked env s hpc]
    exact ⟨hts, hinfo, hseg⟩

/-- C9, as stated, fails on `envSame`: the first cycle selects and records
one segment; the second poll is stale, it selects no segment, requests none,
and the cost list still holds the entry of the first cycle, one more than the
number of segments selected for the current cycle. -/
theorem C9_counterexample :
    (steps envSame 3 (init info0)).pc = .poll
    ∧ (steps envSame 3 (init info0)).sequence = plFirst.Sequence
    ∧ envSame.fetch (steps envSame 3 (init info0)).nFetch = plainResp plFirst
    ∧ (steps envSame 4 (init info0)).tsItems = []
    ∧ gets (steps envSame 4 (init info0)).trace = gets (steps envSame 3 (init info0)).trace
    ∧ (steps envSame 4 (init info0)).info.M3u8Info.length = 1
    ∧ ¬ (steps envSame 4 (init info0)).info.M3u8Info.length
        ≤ (steps envSame 4 (init info0)).tsItems.length := by
  decide

/-- C9, amended: started with at most three cost entries, in every reachable
state the list selected for the cycle has at most three segments and the cost
list has at most three entries; inside the segment loop of a cycle that
selected segments the cost list holds one entry per segment already handled,
so its length plus the number of segments still to handle is the number
selected, which it never exceeds. A poll from a reachable state that is stale
or whose playlist read fails selects no segment and does not reset the list:
the cost list keeps the entries it had, those of the last cycle that selected
segments; only a poll that reads a playlist above the watermark empties it. -/
theorem C9_telemetry_bound (env : Env) (info : M3u8Info) (n : Nat)
    (hstart : info.M3u8Info.length ≤ 3) :
    (steps env n (init info)).tsItems.length ≤ 3
    ∧ (steps env n (init info)).info.M3u8Info.length ≤ 3
    ∧ (∀ rest t, (steps env n (init info)).pc = .segs rest t →
        (steps env n (init info)).info.M3u8Info.length + rest.length
          = (steps env n (init info)).tsItems.length
        ∧ (steps env n (init info)).info.M3u8Info.length
          ≤ (steps env n (init info)).tsItems.length)
    ∧ (∀ r, (steps env n (init info)).pc = .poll →
        env.fetch (steps env n (init info)).nFetch = .resp r →
        env.err (steps env n (init info)).nErr = false →
        (∀ pl, readM3U8 r = .ok pl → pl.Sequence ≤ (steps env n (init info)).sequence) →
          (step env (steps env n (init info))).tsItems = []
          ∧ (step env (steps env n (init info))).info.M3u8Info
              = (steps env n (init info)).info.M3u8Info)
    ∧ (∀ r pl, (steps env n (init info)).pc = .poll →
        env.fetch (steps env n (init info)).nFetch = .resp r →
        env.err (steps env n (init info)).nErr = false →
        readM3U8 r = .ok pl → (steps env n (init info)).sequence < pl.Sequence →
          (step env (steps env n (init info))).info.M3u8Info = []) := by
  have inv : (steps env n (init info)).tsItems.length ≤ 3
      ∧ (steps env n (init info)).info.M3u8Info.length ≤ 3
      ∧ (∀ rest t, (steps env n (init info)).pc = .segs rest t →
          (steps env n (init info)).info.M3u8Info.length + rest.length
            = (steps env n (init info)).tsItems.length) := by
    induction n with
    | zero => simp [steps, init, hstart]
    | succ n ih =>
      rw [steps_succ]
      exact step_bound env _ ih.1 ih.2.1 ih.2.2
  refine ⟨inv.1, inv.2.1, fun rest t h => ⟨inv.2.2 rest t h, ?_⟩, ?_, ?_⟩
  · have := inv.2.2 rest t h
    omega
  · intro r hpc hf _ hstale
    have hall : ∀ r1 pl1, env.fetch (steps env n (init info)).nFetch = .resp r1 →
        readM3U8 r1 = .ok pl1 → pl1.Sequence ≤ (steps env n (init info)).sequence := by
      intro r1 pl1 h1 h2
      rw [hf] at h1
      cases h1
      exact hstale pl1 h2
    obtain ⟨-, g2, -, -, -, -, g7, -⟩ := step_poll_no_advance env _ hpc hall
    exact ⟨g2, g7⟩
  · intro r pl hpc hf he hr hseq
    rw [step_fresh env _ r pl hpc hf he hr hseq]

/-- Witness of C9 (amended): on `envDisc` inside the second cycle, and on
`envSame` at the stale second poll, which keeps the entry of the first cycle. -/
theorem C9_telemetry_bound_witness :
    info0.M3u8Info.length ≤ 3
    ∧ (steps envDisc 6 (init info0)).pc = .segs [⟨"d"⟩] 2
    ∧ (steps envDisc 6 (init info0)).info.M3u8Info.length ≤ 3
    ∧ (steps envSame 3 (init info0)).info.M3u8Info = [⟨5, 7, 2⟩]
    ∧ (step envSame (steps envSame 3 (init info0))).info.M3u8Info
        = (steps envSame 3 (init info0)).info.M3u8Info :=
  ⟨by decide, by decide, (C9_telemetry_bound envDisc info0 6 (by decide)).2.1,
    by decide,
    ((C9_telemetry_bound envSame info0 3 (by decide)).2.2.2.1 ⟨"", none, some plFirst⟩
      (by decide) (by decide) (by decide)
      (fun pl h => by
        have e : plFirst = pl := by simpa [readM3U8] using h
        subst e
        decide)).2⟩

/-! ## Start-up -/

theorem specCandidates_empty (items : List Item) :
    specCandidates ∅ items = segmentsOf items := by
  unfold specCandidates
  simp [segmentsOf_takeWhile_dropWhile]

theorem pollStep_nFetch (env : Env) (s : State) :
    (pollStep env s).nFetch = s.nFetch + 1 := by
  unfold pollStep
  cases env.fetch s.nFetch with
  | transportErr => simp [terminate]
  | resp r =>
    by_cases he : env.err s.nErr = true
    · simp [he, terminate]
    · cases hr : readM3U8 r with
      | ok pl => by_cases hseq : pl.Sequence ≤ s.sequence <;> simp [he, hr, hseq]
      | error e => by_cases hc : s.errcount + 1 > 10 <;> simp [he, hr, hc, terminate]

theorem step_nFetch_le (env : Env) (s : State) : s.nFetch ≤ (step env s).nFetch := by
  unfold step
  split
  · rw [pollStep_nFetch]; exact Nat.le_succ _
  · simp [sleepStep]
  · rw [(segStep_keep env s _ _ _).2.2.2.2.2.2.1]
  · exact le_rfl
  · exact le_rfl

theorem startup_inv (env : Env) (info : M3u8Info) (n : Nat)
    (hzero : ∀ k r pl, k < (steps env n (init info)).nFetch → env.fetch k = .resp r →
      readM3U8 r = .ok pl → pl.Sequence ≤ 0) :
    ((steps env n (init info)).pc = .poll ∨ (steps env n (init info)).pc = .done)
    ∧ (steps env n (init info)).tsItems = []
    ∧ (steps env n (init info)).sequence = 0
    ∧ (steps env n (init info)).lastTs = ∅
    ∧ (steps env n (init info)).info.M3U8Count = info.M3U8Count
    ∧ (steps env n (init info)).info.TSCount = info.TSCount
    ∧ gets (steps env n (init info)).trace = []
    ∧ feeds (steps env n (init info)).trace = [] := by
  induction n with
  | zero => simp [steps, init, gets, feeds]
  | succ n ih =>
    rw [steps_succ] at hzero ⊢
    have hle := step_nFetch_le env (steps env n (init info))
    obtain ⟨h1, h2, h3, h4, h5, h6, h7, h8⟩ :=
      ih (fun k r pl hk => hzero k r pl (lt_of_lt_of_le hk hle))
    rcases h1 with h1 | h1
    · have hall : ∀ r pl, env.fetch (steps env n (init info)).nFetch = .resp r →
          readM3U8 r = .ok pl → pl.Sequence ≤ (steps env n (init info)).sequence := by
        intro r pl hf hr
        rw [h3]
        have hs : (step env (steps env n (init info))).nFetch
            = (steps env n (init info)).nFetch + 1 := by
          simp [step, h1, pollStep_nFetch]
        exact hzero _ r pl (by rw [hs]; exact Nat.lt_succ_self _) hf hr
      obtain ⟨g1, g2, g3, g4, g5, g6, -, g8, g9, -⟩ := step_poll_no_advance env _ h1 hall
      exact ⟨g1, g2, g3.trans h3, g4.trans h4, g5.trans h5, g6.trans h6, g8.trans h7,
        g9.trans h8⟩
    · rw [step_of_done env _ h1]
      exact ⟨Or.inr h1, h2, h3, h4, h5, h6, h7, h8⟩

theorem cycle_fresh_gets_prefix (env : Env) (s : State) (r : Response) (pl : Playlist)
    (hpc : s.pc = .poll) (hf : env.fetch s.nFetch = .resp r) (he : env.err s.nErr = false)
    (hr : readM3U8 r = .ok pl) (hseq : s.sequence < pl.Sequence) :
    ∃ k, gets (cycle env s).trace
      = gets s.trace ++ (cap3 (walk s.lastTs pl.Items).tsItems).take k := by
  have hs := step_fresh env s r pl hpc hf he hr hseq
  have hts : (step env s).tsItems = cap3 (walk s.lastTs pl.Items).tsItems := by rw [hs]
  have hpc1 : (step env s).pc = .segs (cap3 (walk s.lastTs pl.Items).tsItems) pl.Target := by
    rw [hs]
  have hgs : gets (step env s).trace = gets s.trace := by
    rw [hs]; simp [gets_append, gets]
  obtain ⟨k, hk⟩ := finish_gets_prefix env _ ((step env s).tsItems.length + 1) (step env s)
    pl.Target hpc1 (by rw [hts]; exact Nat.lt_succ_self _)
  exact ⟨k, by unfold cycle; rw [hk, hgs]⟩

/-- The nil dereference in the model: on `envBadUrl` the first playlist lists
an identifier that does not resolve; nothing is requested, nothing recorded,
and `run` is left by the panic. -/
theorem unresolved_identifier_panics :
    (steps envBadUrl 1 (init info0)).tsItems = [⟨"%zz"⟩, ⟨"b"⟩]
    ∧ (steps envBadUrl 2 (init info0)).pc = .panicked
    ∧ (steps envBadUrl 5 (init info0)).trace = [.getPlaylist, .cancel]
    ∧ (steps envBadUrl 5 (init info0)).info.M3u8Info = [] := by
  decide

/-- C10: `run` starts with watermark 0, so as long as every playlist parsed so
far has sequence number 0 (or below), however many polls that is and whatever
the playlists list, no segment has been selected, requested or fed, `M3U8Count`
and `TSCount` are what they were at the start (0 for a fresh record), the
seen-set is empty and the watermark is 0. Ingestion begins with the first
playlist whose sequence number is at least 1: that poll counts the playlist,
takes its sequence number as watermark and selects the last three of all its
segment items; the segments requested in that cycle are an initial part of
that selection, and all of it when its identifiers resolve as URLs. -/
theorem C10_sequence_zero_startup (env : Env) (info : M3u8Info) (n : Nat)
    (hzero : ∀ k r pl, k < (steps env n (init info)).nFetch → env.fetch k = .resp r →
      readM3U8 r = .ok pl → pl.Sequence ≤ 0) :
    ((steps env n (init info)).tsItems = []
      ∧ gets (steps env n (init info)).trace = []
      ∧ feeds (steps env n (init info)).trace = []
      ∧ (steps env n (init info)).info.M3U8Count = info.M3U8Count
      ∧ (steps env n (init info)).info.TSCount = info.TSCount
      ∧ (steps env n (init info)).lastTs = ∅
      ∧ (steps env n (init info)).sequence = 0)
    ∧ (∀ r pl, (steps env n (init info)).pc = .poll →
        env.fetch (steps env n (init info)).nFetch = .resp r →
        env.err (steps env n (init info)).nErr = false →
        readM3U8 r = .ok pl → 1 ≤ pl.Sequence →
          (step env (steps env n (init info))).info.M3U8Count = info.M3U8Count + 1
          ∧ (step env (steps env n (init info))).sequence = pl.Sequence
          ∧ (step env (steps env n (init info))).tsItems = cap3 (segmentsOf pl.Items)
          ∧ (∃ k, gets (cycle env (steps env n (init info))).trace
              = (cap3 (segmentsOf pl.Items)).take k)
          ∧ ((∀ x, x ∈ cap3 (segmentsOf pl.Items) → env.resolves x.Segment = true) →
            gets (cycle env (steps env n (init info))).trace
              = cap3 (segmentsOf pl.Items))) := by
  obtain ⟨-, h2, h3, h4, h5, h6, h7, h8⟩ := startup_inv env info n hzero
  refine ⟨⟨h2, h7, h8, h5, h6, h4, h3⟩, ?_⟩
  intro r pl hpc hf he hr hseq
  have hlt : (steps env n (init info)).sequence < pl.Sequence := by rw [h3]; omega
  have hs := step_fresh env _ r pl hpc hf he hr hlt
  have hw : (walk (steps env n (init info)).lastTs pl.Items).tsItems = segmentsOf pl.Items := by
    rw [walk_tsItems, h4, specCandidates_empty]
  obtain ⟨k, hk⟩ := cycle_fresh_gets_prefix env _ r pl hpc hf he hr hlt
  rw [h7, hw, List.nil_append] at hk
  refine ⟨?_, ?_, ?_, ⟨k, hk⟩, fun hres => ?_⟩
  · rw [hs]; simp only [h5]
  · rw [hs]
  · rw [hs]; simp only [hw]
  · rw [← hw] at hres
    rw [(cycle_fresh env _ r pl hpc hf he hr hlt hres).2.1, h7, hw, List.nil_append]

/-- Witness of C10 on `envZero`: two polls of a sequence-0 playlist listing
two segments, then a playlist with sequence number 1. -/
theorem C10_sequence_zero_startup_witness :
    (steps envZero 2 (init info0)).nFetch = 2
    ∧ plZero.Sequence = 0
    ∧ gets (steps envZero 2 (init info0)).trace = []
    ∧ (steps envZero 2 (init info0)).info.M3U8Count = 0
    ∧ (step envZero (steps envZero 2 (init info0))).info.M3U8Count = 0 + 1
    ∧ gets (cycle envZero (steps envZero 2 (init info0))).trace
        = cap3 (segmentsOf plFirst.Items) :=
  have hz : ∀ k r pl, k < (steps envZero 2 (init info0)).nFetch → envZero.fetch k = .resp r →
      readM3U8 r = .ok pl → pl.Sequence ≤ 0 := by
    intro k r pl hk hf hr
    have hk2 : k < 2 := hk
    have hf2 : plainResp plZero = .resp r := by
      simpa [envZero, hk2] using hf
    simp only [plainResp, DoResult.resp.injEq] at hf2
    subst hf2
    simp only [readM3U8] at hr
    cases hr
    decide
  ⟨by decide, by decide, (C10_sequence_zero_startup envZero info0 2 hz).1.2.1,
    (C10_sequence_zero_startup envZero info0 2 hz).1.2.2.2.1,
    ((C10_sequence_zero_startup envZero info0 2 hz).2 ⟨"", none, some plFirst⟩ plFirst
      (by decide) (by decide) (by decide) rfl (by decide)).1,
    ((C10_sequence_zero_startup envZero info0 2 hz).2 ⟨"", none, some plFirst⟩ plFirst
      (by decide) (by decide) (by decide) rfl (by decide)).2.2.2.2 (fun _ _ => rfl)⟩

end HLS
